import Mathlib

/-! Shallow embedding of `src/qgis_stream_tool.py` (class `StreamReshapeTool`).

The geometry engine (GEOS, reached through `QgsGeometry`) is external to the
program, so it is modelled as a record of pure oracle functions (`GeoEngine`).
Map points are modelled with integer coordinates; the streaming distance test
compares squared distances, which agrees with the source's Euclidean
comparison for the nonnegative tolerance (5) used there.  Rubber bands,
logging strings, layer-tree navigation, Z-value warnings and CRS handling are
rendering or host concerns and are outside the modelled state; user-visible
warnings are kept as trace events so that failure signalling is observable.
Store writes (`changeGeometry`, `addFeature`), validity tests and edit-command
bracketing are recorded in an event trace in source order. -/

structure Point where
  x : Int
  y : Int
deriving DecidableEq

instance : Inhabited Point := ⟨⟨0, 0⟩⟩

/-- A ring as stored by QGIS: a list of points (`QgsPointXY` list). -/
abbrev RingXY := List Point

/-- `asPolygon` representation: ring 0 is the exterior ring, the rest are holes. -/
abbrev Polygon := List RingXY

/-- A `QgsGeometry` value as far as the tool inspects it: a polygon, a
multi-polygon, or a polyline (`fromPolylineXY`). -/
inductive Geometry
  | poly (rings : List RingXY)
  | multi (parts : List Polygon)
  | line (pts : List Point)
deriving DecidableEq

/-- `QgsGeometry.isEmpty`, structurally. -/
def Geometry.isEmpty : Geometry → Bool
  | .poly rings => rings.isEmpty
  | .multi parts => parts.isEmpty
  | .line pts => pts.isEmpty

/-- `asPolygon()`: the ring list of a single polygon; empty for non-polygon
geometries (QGIS returns an empty list there). -/
def asPolygonRings : Geometry → List RingXY
  | .poly rings => rings
  | .multi _ => []
  | .line _ => []

/-- The external geometry engine: `contains`, `intersects`, `isGeosValid`,
`buffer(0, 5)`, `makeValid` and `reshapeGeometry` as used by the source.
`reshape g pts` returns `some` of the reshaped geometry on
`OperationResult.Success`, otherwise `none`. -/
structure GeoEngine where
  contains : Geometry → Geometry → Bool
  intersects : Geometry → Geometry → Bool
  isGeosValid : Geometry → Bool
  buffer0 : Geometry → Geometry
  makeValid : Geometry → Geometry
  reshape : Geometry → List Point → Option Geometry

structure Feature where
  fid : Int
  geom : Geometry
deriving DecidableEq

/-- The vector layer as far as the tool touches it: its features, the set of
selected feature ids, whether `addFeature` succeeds (layer editability), and
the id handed to the next added feature. -/
structure Layer where
  feats : List Feature
  selIds : List Int
  acceptAdd : Bool
  nextFid : Int
deriving DecidableEq

def Layer.selectedFeatures (l : Layer) : List Feature :=
  l.feats.filter (fun f => l.selIds.contains f.fid)

def Layer.getFeature (l : Layer) (fid : Int) : Feature :=
  (l.feats.find? (fun f => f.fid == fid)).getD ⟨fid, .poly []⟩

def Layer.changeGeometry (l : Layer) (fid : Int) (g : Geometry) : Layer :=
  { l with feats := l.feats.map (fun f => if f.fid == fid then { f with geom := g } else f) }

def Layer.addFeature (l : Layer) (g : Geometry) : Layer × Bool :=
  if l.acceptAdd then
    ({ l with feats := l.feats ++ [⟨l.nextFid, g⟩], nextFid := l.nextFid + 1 }, true)
  else (l, false)

/-- Tags of the user-visible diagnostics (`_warn` log messages) emitted by the
modelled functions. -/
inductive Msg
  | drawAtLeast2
  | noFeatureSelectedDelete
  | addFeatureFailed
  | invalidPolygonDrawn
  | noFeatureToReshape
  | emptyOrInvalid
  | reshapeFailed
  | unrepairable
  | selectOneToRepair
  | unableToRepair
deriving DecidableEq

/-- Observable actions of one gesture, in source order: warnings, engine
validity tests, feature-store writes, and edit-command bracketing. -/
inductive Event
  | warn (m : Msg)
  | isValidTest (g : Geometry) (result : Bool)
  | changeGeometry (fid : Int) (g : Geometry)
  | addFeature (g : Geometry)
  | beginEditCommand
  | endEditCommand
  | destroyEditCommand
deriving DecidableEq

/-- The mutable fields of `StreamReshapeTool` that the modelled methods read
or write. -/
structure ToolState where
  points : List Point
  streaming : Bool
  tolerance : Int
  currentCursorPos : Option Point
  streamEnabled : Bool
  drawingMode : Bool
  layer : Layer
deriving DecidableEq

/-- `closed_points = self.points + [self.points[0]]` (lines 384 and 470):
the first point is appended unconditionally. -/
def closedRing (pts : List Point) : RingXY := pts ++ [pts.headI]

/-- `QgsGeometry.fromPolygonXY([closed_points])`. -/
def drawnPolygon (pts : List Point) : Geometry := .poly [closedRing pts]

/-- The body of `_apply_changes` as far as tool state goes: clear the vertex
sequence and stop streaming (the rubber-band resets are rendering only);
the `endEditCommand` event is emitted at the call sites. -/
def applyChanges (s : ToolState) : ToolState :=
  { s with points := [], streaming := false }

/-- `should_keep_ring`: keep a ring unless the drawn polygon contains the ring
taken as a one-ring polygon (`fromPolygonXY([ring])`). -/
def ringContained (E : GeoEngine) (drawn : Geometry) (r : RingXY) : Bool :=
  E.contains drawn (.poly [r])

def should_keep_ring (E : GeoEngine) (drawn : Geometry) (r : RingXY) : Bool :=
  !(ringContained E drawn r)

/-- `process_polygon` (lines 310-321): always keep the exterior ring, keep the
interior rings that `should_keep_ring` accepts, and report whether any ring
was dropped.  The source indexes `polygon[0]`, which raises on an empty ring
list; that case is excluded by `Geometry.WF` below and the `[]` branch here is
never exercised by the theorems. -/
def process_polygon (E : GeoEngine) (drawn : Geometry) : Polygon → Polygon × Bool
  | [] => ([], false)
  | ext :: holes =>
    let ringsToKeep := ext :: holes.filter (should_keep_ring E drawn)
    (ringsToKeep, decide (ringsToKeep.length < (ext :: holes).length))

/-- Line 333-334: a part survives unless the drawn polygon contains the
polyline (`fromPolylineXY`) of the part's exterior ring.  `part[0]` raises on
an empty part in the source; excluded by `Geometry.WF`. -/
def keepPart (E : GeoEngine) (drawn : Geometry) : Polygon → Bool
  | [] => true
  | ext :: _ => !(E.contains drawn (.line ext))

/-- The loop of lines 329-341: process every part, keep only parts whose
exterior polyline is not contained, and OR together the per-part modified
flags of the kept parts. -/
def deleteLoop (E : GeoEngine) (drawn : Geometry) : List Polygon → List Polygon × Bool
  | [] => ([], false)
  | part :: rest =>
    let pr := process_polygon E drawn part
    let tl := deleteLoop E drawn rest
    if keepPart E drawn part then (pr.1 :: tl.1, pr.2 || tl.2) else tl

/-- `_delete_circumvented_feature` (lines 291-363).  Returns the updated
layer, the boolean result, and the emitted events. -/
def delete_circumvented (E : GeoEngine) (layer : Layer) (drawn : Geometry) :
    Layer × Bool × List Event :=
  match layer.selectedFeatures with
  | [] => (layer, false, [Event.warn .noFeatureSelectedDelete])
  | feature :: _ =>
    match feature.geom with
    | .multi mp =>
      let dl := deleteLoop E drawn mp
      let modified := dl.2 || decide (dl.1.length < mp.length)
      if modified then
        (layer.changeGeometry feature.fid (.multi dl.1), true,
          [Event.changeGeometry feature.fid (.multi dl.1)])
      else (layer, false, [])
    | .poly rings =>
      let pr := process_polygon E drawn rings
      if pr.2 then
        (layer.changeGeometry feature.fid (.poly pr.1), true,
          [Event.changeGeometry feature.fid (.poly pr.1)])
      else (layer, false, [])
    | .line _ => (layer, false, [])

/-- The circumvention check of lines 401-419: does the drawn polygon contain
any ring (taken as a one-ring polygon) of any part of the feature?  The
non-multi branch iterates `asPolygon()` (empty for non-polygon geometries). -/
def circumventsCheck (E : GeoEngine) (drawn : Geometry) (fg : Geometry) : Bool :=
  match fg with
  | .multi mp => mp.any (fun part => part.any (fun ring => E.contains drawn (.poly [ring])))
  | g => (asPolygonRings g).any (fun ring => E.contains drawn (.poly [ring]))

/-- Lines 423-437: add the closed ring as a new part, converting a single
polygon into a multi-polygon with the existing polygon as part 0. -/
def addPartGeom (fg : Geometry) (closed : RingXY) : Geometry :=
  match fg with
  | .multi mp => .multi (mp ++ [[closed]])
  | g => .multi [asPolygonRings g, [closed]]

/-- Lines 455-463: give the hole to the first part whose geometry contains the
drawn polygon; `none` when no part contains it (the loop falls through). -/
def addHoleMulti (E : GeoEngine) (drawn : Geometry) (closed : RingXY) :
    List Polygon → Option (List Polygon)
  | [] => none
  | part :: rest =>
    if E.contains (.poly part) drawn then some ((part ++ [closed]) :: rest)
    else (addHoleMulti E drawn closed rest).map (fun l => part :: l)

/-- The drawing-mode branch of `_finish_reshape` (lines 469-481) followed by
the unconditional `_apply_changes()` of line 537. -/
def finishDraw (E : GeoEngine) (s : ToolState) : ToolState × List Event :=
  let pg := drawnPolygon s.points
  let ar := s.layer.addFeature pg
  let v := E.isGeosValid pg
  (applyChanges { s with layer := ar.1 },
    [Event.addFeature pg] ++ (if ar.2 then [] else [Event.warn .addFeatureFailed])
      ++ [Event.isValidTest pg v] ++ (if v then [] else [Event.warn .invalidPolygonDrawn])
      ++ [Event.endEditCommand])

/-- The reshape-proper branch of `_finish_reshape` (lines 482-535), including
the validity-repair chain, followed by `_apply_changes()` on the paths that
fall through to line 537.  Failure paths return the state unchanged after
`destroyEditCommand`. -/
def finishReshapeProper (E : GeoEngine) (s : ToolState) : ToolState × List Event :=
  match s.layer.selectedFeatures with
  | [f] =>
    let feature := s.layer.getFeature f.fid
    let fg := feature.geom
    if fg.isEmpty then (s, [Event.warn .emptyOrInvalid, Event.destroyEditCommand])
    else
      let v0 := E.isGeosValid fg
      if v0 then
        match E.reshape fg s.points with
        | none => (s, [Event.isValidTest fg v0, Event.warn .reshapeFailed,
                       Event.destroyEditCommand])
        | some cand =>
          let v1 := E.isGeosValid cand
          if v1 then
            (applyChanges { s with layer := s.layer.changeGeometry f.fid cand },
              [Event.isValidTest fg v0, Event.isValidTest cand v1,
               Event.changeGeometry f.fid cand, Event.endEditCommand])
          else
            let merged := E.buffer0 cand
            let v2 := E.isGeosValid merged
            if v2 then
              (applyChanges { s with layer := s.layer.changeGeometry f.fid merged },
                [Event.isValidTest fg v0, Event.isValidTest cand v1,
                 Event.isValidTest merged v2, Event.changeGeometry f.fid merged,
                 Event.endEditCommand])
            else
              let fixedg := E.makeValid cand
              let v3 := E.isGeosValid fixedg
              if v3 then
                (applyChanges { s with layer := s.layer.changeGeometry f.fid fixedg },
                  [Event.isValidTest fg v0, Event.isValidTest cand v1,
                   Event.isValidTest merged v2, Event.isValidTest fixedg v3,
                   Event.changeGeometry f.fid fixedg, Event.endEditCommand])
              else
                (s, [Event.isValidTest fg v0, Event.isValidTest cand v1,
                     Event.isValidTest merged v2, Event.isValidTest fixedg v3,
                     Event.warn .unrepairable, Event.destroyEditCommand])
      else (s, [Event.isValidTest fg v0, Event.warn .emptyOrInvalid,
                Event.destroyEditCommand])
  | _ => (s, [Event.warn .noFeatureToReshape, Event.destroyEditCommand])

/-- `_finish_reshape` (lines 365-537).  The guard of line 366, then
`beginEditCommand`, then (in reshape mode) the removal attempt, the add-part
and add-hole checks, and finally the drawing branch or the reshape-proper
branch.  When the removal returned `False` the layer was not changed, so the
continuation reads `s.layer` as the source re-reads `self.layer`. -/
def finish_reshape (E : GeoEngine) (s : ToolState) : ToolState × List Event :=
  if !s.streaming || s.points.length < 2 then
    (s, [Event.warn .drawAtLeast2])
  else if s.drawingMode then
    let r := finishDraw E s
    (r.1, Event.beginEditCommand :: r.2)
  else
    let pg := drawnPolygon s.points
    let d := delete_circumvented E s.layer pg
    if d.2.1 then
      (applyChanges { s with layer := d.1 },
        Event.beginEditCommand :: d.2.2 ++ [Event.endEditCommand])
    else
      match s.layer.selectedFeatures with
      | [f] =>
        let fg := f.geom
        let inter := E.intersects fg pg
        let circ := circumventsCheck E pg fg
        if !inter && !circ then
          let ng := addPartGeom fg (closedRing s.points)
          (applyChanges { s with layer := s.layer.changeGeometry f.fid ng },
            Event.beginEditCommand :: d.2.2
              ++ [Event.changeGeometry f.fid ng, Event.endEditCommand])
        else if inter && !circ && E.contains fg pg then
          match fg with
          | .multi mp =>
            match addHoleMulti E pg (closedRing s.points) mp with
            | some newMP =>
              (applyChanges { s with layer := s.layer.changeGeometry f.fid (.multi newMP) },
                Event.beginEditCommand :: d.2.2
                  ++ [Event.changeGeometry f.fid (.multi newMP), Event.endEditCommand])
            | none =>
              (applyChanges s, Event.beginEditCommand :: d.2.2 ++ [Event.endEditCommand])
          | g =>
            let ng := Geometry.poly (asPolygonRings g ++ [closedRing s.points])
            (applyChanges { s with layer := s.layer.changeGeometry f.fid ng },
              Event.beginEditCommand :: d.2.2
                ++ [Event.changeGeometry f.fid ng, Event.endEditCommand])
        else
          let r := finishReshapeProper E s
          (r.1, Event.beginEditCommand :: d.2.2 ++ r.2)
      | _ =>
        let r := finishReshapeProper E s
        (r.1, Event.beginEditCommand :: d.2.2 ++ r.2)

/-- `_repair_selected_geometry` (lines 539-566). -/
def repair_selected (E : GeoEngine) (layer : Layer) : Layer × List Event :=
  match layer.selectedFeatures with
  | [f] =>
    let geom := f.geom
    if E.isGeosValid geom then
      (layer, [Event.beginEditCommand, Event.isValidTest geom true, Event.destroyEditCommand])
    else
      let b0 := E.buffer0 geom
      let v2 := E.isGeosValid b0
      let fixedg := if v2 then b0 else E.makeValid geom
      let vf := E.isGeosValid fixedg
      if vf then
        (layer.changeGeometry f.fid fixedg,
          [Event.beginEditCommand, Event.isValidTest geom false, Event.isValidTest b0 v2,
           Event.isValidTest fixedg vf, Event.changeGeometry f.fid fixedg,
           Event.endEditCommand])
      else
        (layer,
          [Event.beginEditCommand, Event.isValidTest geom false, Event.isValidTest b0 v2,
           Event.isValidTest fixedg vf, Event.destroyEditCommand,
           Event.warn .unableToRepair])
  | _ => (layer, [Event.warn .selectOneToRepair])

inductive MouseButton
  | left
  | right
deriving DecidableEq

def distSq (a b : Point) : Int :=
  (a.x - b.x) * (a.x - b.x) + (a.y - b.y) * (a.y - b.y)

/-- `last.distance(cursor) >= self.tolerance`, compared on squares (equivalent
for the nonnegative tolerance the tool uses). -/
def distGe (a b : Point) (tol : Int) : Bool :=
  decide (tol * tol ≤ distSq a b)

/-- `canvasPressEvent` (lines 150-160). -/
def canvasPressEvent (s : ToolState) (b : MouseButton) (pt : Point) : ToolState :=
  if b = MouseButton.left then
    if !s.streaming || s.points.isEmpty then
      { s with points := [pt], streaming := true }
    else
      { s with points := s.points ++ [pt] }
  else s

/-- `canvasMoveEvent` (lines 162-170). -/
def canvasMoveEvent (s : ToolState) (pt : Point) : ToolState :=
  if s.points.isEmpty then s
  else
    let s1 := { s with currentCursorPos := some pt }
    if s1.streaming && s1.streamEnabled && distGe (s1.points.getLastD default) pt s1.tolerance
    then { s1 with points := s1.points ++ [pt] }
    else s1

/-- `_add_vertex_from_cursor` (lines 252-255). -/
def addVertexFromCursor (s : ToolState) : ToolState :=
  if s.streaming then
    match s.currentCursorPos with
    | some c => { s with points := s.points ++ [c] }
    | none => s
  else s

/-- `canvasReleaseEvent` (lines 172-177): a right-button release appends the
release point and runs `_finish_reshape`; other buttons do nothing. -/
def canvasReleaseEvent (E : GeoEngine) (s : ToolState) (b : MouseButton) (pt : Point) :
    ToolState × List Event :=
  if b = MouseButton.right then
    finish_reshape E { s with points := s.points ++ [pt] }
  else (s, [])

/-- `_cancel` (lines 209-245): with an in-progress line, clear it; with no
line, the exit-tool dialog path is a host concern and leaves the modelled
state unchanged. -/
def cancelTool (s : ToolState) : ToolState :=
  if s.points.isEmpty then s
  else { s with points := [], streaming := false }

/-- `activate` (lines 104-132) as far as the modelled fields go. -/
def activateTool (s : ToolState) : ToolState :=
  { s with points := [], streaming := false }

inductive InputEvent
  | press (b : MouseButton) (pt : Point)
  | move (pt : Point)
  | release (b : MouseButton) (pt : Point)
  | addCursor
  | cancel
  | finishKey
  | toggleStream
  | toggleDraw
  | reactivate

/-- One step of the digitizing state machine: dispatch a user-input event to
the handler the source connects it to. -/
def step (E : GeoEngine) (s : ToolState) : InputEvent → ToolState
  | .press b pt => canvasPressEvent s b pt
  | .move pt => canvasMoveEvent s pt
  | .release b pt => (canvasReleaseEvent E s b pt).1
  | .addCursor => addVertexFromCursor s
  | .cancel => cancelTool s
  | .finishKey => (finish_reshape E s).1
  | .toggleStream => { s with streamEnabled := !s.streamEnabled }
  | .toggleDraw => { s with drawingMode := !s.drawingMode }
  | .reactivate => activateTool s

def runEvents (E : GeoEngine) (s : ToolState) (evs : List InputEvent) : ToolState :=
  evs.foldl (step E) s

/-- The state right after `__init__` plus the first `activate`. -/
def mkInitialState (l : Layer) : ToolState :=
  { points := [], streaming := false, tolerance := 5, currentCursorPos := none,
    streamEnabled := false, drawingMode := false, layer := l }

/-- Well-formedness the source assumes of stored polygon geometries: every
ring list indexed by `polygon[0]` / `part[0]` is nonempty. -/
def Geometry.WF : Geometry → Prop
  | .poly rings => rings ≠ []
  | .multi mp => ∀ p ∈ mp, p ≠ []
  | .line _ => True

/-- Does the drawn polygon contain some interior ring (hole) of the feature
geometry, under the same engine test the removal code uses? -/
def hasContainedInteriorRing (E : GeoEngine) (drawn : Geometry) : Geometry → Bool
  | .poly rings => (rings.drop 1).any (ringContained E drawn)
  | .multi mp => mp.any (fun part => (part.drop 1).any (ringContained E drawn))
  | .line _ => false

/-! ### Shared concrete fixtures for witnesses and counterexamples -/

/-- An engine with trivial answers: nothing contains or intersects anything,
everything is valid, repairs are the identity, reshape always fails. -/
def engTrivial : GeoEngine :=
  { contains := fun _ _ => false, intersects := fun _ _ => false,
    isGeosValid := fun _ => true, buffer0 := id, makeValid := id,
    reshape := fun _ _ => none }

def layerEmpty : Layer := { feats := [], selIds := [], acceptAdd := true, nextFid := 1 }

def gSquare : Geometry := .poly [[⟨0, 0⟩, ⟨4, 0⟩, ⟨4, 4⟩, ⟨0, 0⟩]]

def layerOneValid : Layer :=
  { feats := [⟨1, gSquare⟩], selIds := [1], acceptAdd := true, nextFid := 2 }

/-! ### Claim C10 -/

/-- Claim C10: a right-button release appends the release position to the
vertex sequence and then runs the finish procedure, for every state — in
particular a right-click with an empty sequence appends one point and the
attempted finish leaves exactly that point. -/
theorem rightRelease_appends_then_finishes (E : GeoEngine) (s : ToolState) (pt : Point) :
    canvasReleaseEvent E s .right pt = finish_reshape E { s with points := s.points ++ [pt] } ∧
    (s.points = [] → (canvasReleaseEvent E s .right pt).1.points = [pt]) := by
  refine ⟨rfl, fun h => ?_⟩
  simp [canvasReleaseEvent, finish_reshape, h]

/-- Witness for C10 at a concrete idle state: the right-click on the empty
sequence still attempts the finish with exactly the release point recorded. -/
theorem rightRelease_appends_then_finishes_witness :
    canvasReleaseEvent engTrivial (mkInitialState layerEmpty) .right ⟨7, 7⟩
        = finish_reshape engTrivial
            { mkInitialState layerEmpty with points := (mkInitialState layerEmpty).points ++ [⟨7, 7⟩] } ∧
      (canvasReleaseEvent engTrivial (mkInitialState layerEmpty) .right ⟨7, 7⟩).1.points = [⟨7, 7⟩] :=
  ⟨(rightRelease_appends_then_finishes engTrivial (mkInitialState layerEmpty) ⟨7, 7⟩).1,
   (rightRelease_appends_then_finishes engTrivial (mkInitialState layerEmpty) ⟨7, 7⟩).2 rfl⟩

/-! ### Claim C9 -/

/-- Claim C9 counterexample: from the initial state, a right-button release at
(0,0) leaves a non-empty sequence with streaming off (the failed finish does
not clear it), and the next left press at (1,1) replaces the sequence — the
first point of a non-empty sequence changes under a press event without any
cancel, successful finish, or reactivation in between. -/
theorem firstPoint_changes_on_press_after_right_release :
    (runEvents engTrivial (mkInitialState layerEmpty) [.release .right ⟨0, 0⟩]).points
        = [⟨0, 0⟩] ∧
      (runEvents engTrivial (mkInitialState layerEmpty) [.release .right ⟨0, 0⟩]).streaming
        = false ∧
      (step engTrivial (runEvents engTrivial (mkInitialState layerEmpty) [.release .right ⟨0, 0⟩])
          (.press .left ⟨1, 1⟩)).points = [⟨1, 1⟩] ∧
      (⟨0, 0⟩ : Point) ≠ ⟨1, 1⟩ := by
  decide

/-- Claim C9 (amended): while streaming is active and the sequence is
non-empty, press, move and add-from-cursor events never change the first
point of the vertex sequence. -/
theorem firstPoint_fixed_while_streaming (s : ToolState) (b : MouseButton) (pt : Point)
    (h1 : s.streaming = true) (h2 : s.points ≠ []) :
    (canvasPressEvent s b pt).points.head? = s.points.head? ∧
    (canvasMoveEvent s pt).points.head? = s.points.head? ∧
    (addVertexFromCursor s).points.head? = s.points.head? := by
  rcases hL : s.points with _ | ⟨a, t⟩
  · exact absurd hL h2
  · have hh : s.points.head? = some a := by rw [hL]; rfl
    refine ⟨?_, ?_, ?_⟩
    · cases b <;> simp [canvasPressEvent, h1, hL, hh]
    · simp only [canvasMoveEvent, hL]
      split
      · simp_all
      · split <;> simp [hL, hh]
    · simp only [addVertexFromCursor, h1]
      rcases s.currentCursorPos with _ | c <;> simp [hL, hh]

/-- Witness for the amended C9 at a concrete streaming state. -/
theorem firstPoint_fixed_while_streaming_witness :
    (canvasPressEvent
          { mkInitialState layerEmpty with points := [⟨0, 0⟩], streaming := true }
          .left ⟨9, 9⟩).points.head?
        = ({ mkInitialState layerEmpty with
              points := [⟨0, 0⟩], streaming := true } : ToolState).points.head? ∧
      (canvasMoveEvent
          { mkInitialState layerEmpty with points := [⟨0, 0⟩], streaming := true }
          ⟨9, 9⟩).points.head?
        = ({ mkInitialState layerEmpty with
              points := [⟨0, 0⟩], streaming := true } : ToolState).points.head? ∧
      (addVertexFromCursor
          { mkInitialState layerEmpty with points := [⟨0, 0⟩], streaming := true }).points.head?
        = ({ mkInitialState layerEmpty with
              points := [⟨0, 0⟩], streaming := true } : ToolState).points.head? :=
  firstPoint_fixed_while_streaming
    { mkInitialState layerEmpty with points := [⟨0, 0⟩], streaming := true }
    .left ⟨9, 9⟩ rfl (by decide)

/-! ### Claim C8 -/

/-- Claim C8: on an already-valid geometry the repair operation leaves the
layer unchanged and performs no geometry write, so running it twice equals
running it zero times. -/
theorem repair_valid_noop (E : GeoEngine) (layer : Layer) (f : Feature)
    (fid : Int) (g : Geometry)
    (hsel : layer.selectedFeatures = [f]) (hv : E.isGeosValid f.geom = true) :
    (repair_selected E layer).1 = layer ∧
    Event.changeGeometry fid g ∉ (repair_selected E layer).2 ∧
    (repair_selected E (repair_selected E layer).1).1 = layer := by
  have h1 : repair_selected E layer
      = (layer, [Event.beginEditCommand, Event.isValidTest f.geom true,
                 Event.destroyEditCommand]) := by
    simp [repair_selected, hsel, hv]
  refine ⟨by rw [h1], by rw [h1]; simp, by rw [h1, h1]⟩

/-- Witness for C8 at a concrete layer holding one valid selected feature. -/
theorem repair_valid_noop_witness :
    (repair_selected engTrivial layerOneValid).1 = layerOneValid ∧
      Event.changeGeometry 1 gSquare ∉ (repair_selected engTrivial layerOneValid).2 ∧
      (repair_selected engTrivial (repair_selected engTrivial layerOneValid).1).1
        = layerOneValid :=
  repair_valid_noop engTrivial layerOneValid ⟨1, gSquare⟩ 1 gSquare (by decide) (by decide)

/-! ### Claim C2 -/

/-- On every failure path of the reshape-proper branch (no selection, empty or
invalid geometry, failed reshape, unrepairable result) — i.e. whenever no
`endEditCommand` is emitted — the tool state, and in particular the vertex
sequence, is returned unchanged. -/
theorem finishReshapeProper_stuck_state (E : GeoEngine) (s : ToolState)
    (h : Event.endEditCommand ∉ (finishReshapeProper E s).2) :
    (finishReshapeProper E s).1 = s := by
  rcases hsel : s.layer.selectedFeatures with _ | ⟨f, _ | ⟨f2, rest⟩⟩
  · simp [finishReshapeProper, hsel]
  · by_cases he : (s.layer.getFeature f.fid).geom.isEmpty
    · simp [finishReshapeProper, hsel, he]
    · by_cases hv0 : E.isGeosValid (s.layer.getFeature f.fid).geom
      · rcases hr : E.reshape (s.layer.getFeature f.fid).geom s.points with _ | cand
        · simp [finishReshapeProper, hsel, he, hv0, hr]
        · by_cases hv1 : E.isGeosValid cand
          · exfalso; apply h
            simp [finishReshapeProper, hsel, he, hv0, hr, hv1]
          · by_cases hv2 : E.isGeosValid (E.buffer0 cand)
            · exfalso; apply h
              simp [finishReshapeProper, hsel, he, hv0, hr, hv1, hv2]
            · by_cases hv3 : E.isGeosValid (E.makeValid cand)
              · exfalso; apply h
                simp [finishReshapeProper, hsel, he, hv0, hr, hv1, hv2, hv3]
              · simp [finishReshapeProper, hsel, he, hv0, hr, hv1, hv2, hv3]
      · simp [finishReshapeProper, hsel, he, hv0]
  · simp [finishReshapeProper, hsel]

/-- Claim C2 (amended): a finish invocation that does not run to completion
(emits no `endEditCommand`) leaves the vertex sequence exactly as it was; the
sequence is cleared only by gestures that complete.  (The claim as stated —
that a failed finish clears the sequence — is refuted by the counterexample
below.) -/
theorem finish_without_completion_preserves_points (E : GeoEngine) (s : ToolState)
    (h : Event.endEditCommand ∉ (finish_reshape E s).2) :
    (finish_reshape E s).1.points = s.points := by
  by_cases hg : (!s.streaming || decide (s.points.length < 2)) = true
  · simp [finish_reshape, hg]
  · by_cases hd : s.drawingMode
    · exfalso; apply h
      simp [finish_reshape, hg, hd, finishDraw]
    · by_cases hdel : (delete_circumvented E s.layer (drawnPolygon s.points)).2.1
      · exfalso; apply h
        simp [finish_reshape, hg, hd, hdel]
      · rcases hsel : s.layer.selectedFeatures with _ | ⟨f, _ | ⟨f2, rest⟩⟩
        · have hrw : finish_reshape E s
              = ((finishReshapeProper E s).1,
                 Event.beginEditCommand ::
                   (delete_circumvented E s.layer (drawnPolygon s.points)).2.2
                     ++ (finishReshapeProper E s).2) := by
            simp [finish_reshape, hg, hd, hdel, hsel]
          rw [hrw] at h ⊢
          have hr2 : Event.endEditCommand ∉ (finishReshapeProper E s).2 := by
            intro hm; exact h (by simp [hm])
          rw [finishReshapeProper_stuck_state E s hr2]
        · by_cases hc1 : (!E.intersects f.geom (drawnPolygon s.points)
              && !circumventsCheck E (drawnPolygon s.points) f.geom) = true
          · exfalso; apply h
            simp [finish_reshape, hg, hd, hdel, hsel, hc1]
          · by_cases hc2 : (E.intersects f.geom (drawnPolygon s.points)
                && !circumventsCheck E (drawnPolygon s.points) f.geom
                && E.contains f.geom (drawnPolygon s.points)) = true
            · simp only [Bool.and_eq_true, Bool.not_eq_true'] at hc2
              obtain ⟨⟨hInt, hCirc⟩, hCont⟩ := hc2
              rcases hfg : f.geom with rings | mp | pts
              · rw [hfg] at hInt hCirc hCont
                exfalso; apply h
                simp [finish_reshape, hg, hd, hdel, hsel, hfg, hInt, hCirc, hCont]
              · rw [hfg] at hInt hCirc hCont
                rcases hah : addHoleMulti E (drawnPolygon s.points) (closedRing s.points) mp
                    with _ | newMP
                · exfalso; apply h
                  simp [finish_reshape, hg, hd, hdel, hsel, hfg, hInt, hCirc, hCont, hah]
                · exfalso; apply h
                  simp [finish_reshape, hg, hd, hdel, hsel, hfg, hInt, hCirc, hCont, hah]
              · rw [hfg] at hInt hCirc hCont
                exfalso; apply h
                simp [finish_reshape, hg, hd, hdel, hsel, hfg, hInt, hCirc, hCont]
            · have hrw : finish_reshape E s
                  = ((finishReshapeProper E s).1,
                     Event.beginEditCommand ::
                       (delete_circumvented E s.layer (drawnPolygon s.points)).2.2
                         ++ (finishReshapeProper E s).2) := by
                simp [finish_reshape, hg, hd, hdel, hsel, hc1, hc2]
              rw [hrw] at h ⊢
              have hr2 : Event.endEditCommand ∉ (finishReshapeProper E s).2 := by
                intro hm; exact h (by simp [hm])
              rw [finishReshapeProper_stuck_state E s hr2]
        · have hrw : finish_reshape E s
              = ((finishReshapeProper E s).1,
                 Event.beginEditCommand ::
                   (delete_circumvented E s.layer (drawnPolygon s.points)).2.2
                     ++ (finishReshapeProper E s).2) := by
            simp [finish_reshape, hg, hd, hdel, hsel]
          rw [hrw] at h ⊢
          have hr2 : Event.endEditCommand ∉ (finishReshapeProper E s).2 := by
            intro hm; exact h (by simp [hm])
          rw [finishReshapeProper_stuck_state E s hr2]

/-- A reachable state with one captured vertex: one left press from idle. -/
def stateOnePoint : ToolState :=
  { mkInitialState layerEmpty with points := [⟨0, 0⟩], streaming := true }

/-- Claim C2 counterexample: with a single captured vertex (a reachable
state — one left press from idle), the finish invocation fails the
too-few-vertices check but returns with the vertex sequence intact, not
cleared. -/
theorem failed_finish_keeps_dangling_line :
    (runEvents engTrivial (mkInitialState layerEmpty) [.press .left ⟨0, 0⟩]) = stateOnePoint ∧
      finish_reshape engTrivial stateOnePoint
        = (stateOnePoint, [Event.warn .drawAtLeast2]) ∧
      stateOnePoint.points = [⟨0, 0⟩] := by
  decide

/-- Witness for the amended C2 at the concrete one-vertex state. -/
theorem finish_without_completion_preserves_points_witness :
    (finish_reshape engTrivial stateOnePoint).1.points = stateOnePoint.points :=
  finish_without_completion_preserves_points engTrivial stateOnePoint (by decide)

/-! ### Claim C1 -/

/-- When the removal attempt reports `False` with a selection present, it
emitted no events. -/
theorem delete_not_modified_events (E : GeoEngine) (l : Layer) (drawn : Geometry)
    (f : Feature) (rest : List Feature)
    (hsel : l.selectedFeatures = f :: rest)
    (hdel : (delete_circumvented E l drawn).2.1 = false) :
    (delete_circumvented E l drawn).2.2 = [] := by
  rcases hfg : f.geom with rings | mp | pts
  · by_cases hm : (process_polygon E drawn rings).2
    · exfalso
      simp [delete_circumvented, hsel, hfg, hm] at hdel
    · simp [delete_circumvented, hsel, hfg, hm]
  · by_cases hm : ((deleteLoop E drawn mp).2
        || decide ((deleteLoop E drawn mp).1.length < mp.length)) = true
    · exfalso
      simp [delete_circumvented, hsel, hfg, hm] at hdel
    · simp [delete_circumvented, hsel, hfg, hm]
  · simp [delete_circumvented, hsel, hfg]

/-- Claim C1 (amended, positive half): the boundary-reshape path commits a
geometry only if that geometry passed the engine's validity test — the raw
candidate when valid, otherwise the buffer(0) or makeValid repair, each
re-tested before the write. -/
theorem reshape_branch_commits_only_valid (E : GeoEngine) (s : ToolState)
    (fid : Int) (g : Geometry)
    (h : Event.changeGeometry fid g ∈ (finishReshapeProper E s).2) :
    E.isGeosValid g = true := by
  rcases hsel : s.layer.selectedFeatures with _ | ⟨f, _ | ⟨f2, rest⟩⟩
  · simp [finishReshapeProper, hsel] at h
  · by_cases he : (s.layer.getFeature f.fid).geom.isEmpty
    · simp [finishReshapeProper, hsel, he] at h
    · by_cases hv0 : E.isGeosValid (s.layer.getFeature f.fid).geom
      · rcases hr : E.reshape (s.layer.getFeature f.fid).geom s.points with _ | cand
        · simp [finishReshapeProper, hsel, he, hv0, hr] at h
        · by_cases hv1 : E.isGeosValid cand
          · simp [finishReshapeProper, hsel, he, hv0, hr, hv1] at h
            rw [h.2]; exact hv1
          · by_cases hv2 : E.isGeosValid (E.buffer0 cand)
            · simp [finishReshapeProper, hsel, he, hv0, hr, hv1, hv2] at h
              rw [h.2]; exact hv2
            · by_cases hv3 : E.isGeosValid (E.makeValid cand)
              · simp [finishReshapeProper, hsel, he, hv0, hr, hv1, hv2, hv3] at h
                rw [h.2]; exact hv3
              · simp [finishReshapeProper, hsel, he, hv0, hr, hv1, hv2, hv3] at h
      · simp [finishReshapeProper, hsel, he, hv0] at h
  · simp [finishReshapeProper, hsel] at h

/-- An engine under which everything is contained and nothing is valid. -/
def engNothingValid : GeoEngine :=
  { contains := fun _ _ => true, intersects := fun _ _ => true,
    isGeosValid := fun _ => false, buffer0 := id, makeValid := id,
    reshape := fun _ _ => none }

def extR : RingXY := [⟨0, 0⟩, ⟨10, 0⟩, ⟨10, 10⟩, ⟨0, 0⟩]

def holeR : RingXY := [⟨2, 2⟩, ⟨3, 2⟩, ⟨3, 3⟩, ⟨2, 2⟩]

def layerHole : Layer :=
  { feats := [⟨1, .poly [extR, holeR]⟩], selIds := [1], acceptAdd := true, nextFid := 2 }

def stateHole : ToolState :=
  { mkInitialState layerHole with points := [⟨1, 1⟩, ⟨6, 1⟩, ⟨6, 6⟩], streaming := true }

/-- Claim C1 counterexample: a RemoveContained gesture commits its candidate
replacement geometry with no validity test anywhere in the trace — indeed the
committed geometry fails the engine's validity test, yet it is written. -/
theorem removeContained_commits_without_validity_test :
    finish_reshape engNothingValid stateHole
        = (applyChanges { stateHole with layer := layerHole.changeGeometry 1 (.poly [extR]) },
           [Event.beginEditCommand, Event.changeGeometry 1 (.poly [extR]),
            Event.endEditCommand]) ∧
      engNothingValid.isGeosValid (.poly [extR]) = false := by
  decide

/-- An engine whose reshape echoes the input geometry and validates it. -/
def engReshapeOk : GeoEngine :=
  { contains := fun _ _ => false, intersects := fun _ _ => true,
    isGeosValid := fun _ => true, buffer0 := id, makeValid := id,
    reshape := fun g _ => some g }

def stateReshape : ToolState :=
  { mkInitialState layerOneValid with points := [⟨-1, 1⟩, ⟨5, 1⟩], streaming := true }

/-- Witness for the amended C1: the reshape-proper branch commits `gSquare`
at this input, and the theorem yields that the committed geometry is valid. -/
theorem reshape_branch_commits_only_valid_witness :
    engReshapeOk.isGeosValid gSquare = true :=
  reshape_branch_commits_only_valid engReshapeOk stateReshape 1 gSquare (by decide)

/-! ### Claim C5 -/

/-- Claim C5: when the reshape primitive succeeds but its candidate fails the
validity test, the repair chain is exactly buffer(0)-then-retest, then
makeValid-then-retest, and if both fail the edit is abandoned with the layer
untouched and no `changeGeometry` call at all. -/
theorem reshape_repair_chain (E : GeoEngine) (s : ToolState) (f : Feature)
    (cand : Geometry) (fid2 : Int) (g2 : Geometry)
    (hstream : s.streaming = true) (hlen : 2 ≤ s.points.length)
    (hmode : s.drawingMode = false)
    (hsel : s.layer.selectedFeatures = [f])
    (hdel : (delete_circumvented E s.layer (drawnPolygon s.points)).2.1 = false)
    (hint : E.intersects f.geom (drawnPolygon s.points) = true)
    (hcont : E.contains f.geom (drawnPolygon s.points) = false)
    (hget : s.layer.getFeature f.fid = f)
    (hne : f.geom.isEmpty = false)
    (hval : E.isGeosValid f.geom = true)
    (hrs : E.reshape f.geom s.points = some cand)
    (hinv : E.isGeosValid cand = false) :
    (E.isGeosValid (E.buffer0 cand) = true →
      finish_reshape E s
        = (applyChanges { s with layer := s.layer.changeGeometry f.fid (E.buffer0 cand) },
           [Event.beginEditCommand, Event.isValidTest f.geom true,
            Event.isValidTest cand false, Event.isValidTest (E.buffer0 cand) true,
            Event.changeGeometry f.fid (E.buffer0 cand), Event.endEditCommand])) ∧
    (E.isGeosValid (E.buffer0 cand) = false → E.isGeosValid (E.makeValid cand) = true →
      finish_reshape E s
        = (applyChanges { s with layer := s.layer.changeGeometry f.fid (E.makeValid cand) },
           [Event.beginEditCommand, Event.isValidTest f.geom true,
            Event.isValidTest cand false, Event.isValidTest (E.buffer0 cand) false,
            Event.isValidTest (E.makeValid cand) true,
            Event.changeGeometry f.fid (E.makeValid cand), Event.endEditCommand])) ∧
    (E.isGeosValid (E.buffer0 cand) = false → E.isGeosValid (E.makeValid cand) = false →
      (finish_reshape E s).1 = s ∧
        Event.changeGeometry fid2 g2 ∉ (finish_reshape E s).2) := by
  have hg : (!s.streaming || decide (s.points.length < 2)) = false := by
    rw [hstream]; simp; omega
  have hev : (delete_circumvented E s.layer (drawnPolygon s.points)).2.2 = [] :=
    delete_not_modified_events E s.layer (drawnPolygon s.points) f [] hsel hdel
  have hrw : finish_reshape E s
      = ((finishReshapeProper E s).1, Event.beginEditCommand :: (finishReshapeProper E s).2) := by
    simp [finish_reshape, hg, hmode, hdel, hsel, hint, hcont, hev]
  refine ⟨fun hb => ?_, fun hb hm => ?_, fun hb hm => ?_⟩
  · rw [hrw]
    simp [finishReshapeProper, hsel, hget, hne, hval, hrs, hinv, hb]
  · rw [hrw]
    simp [finishReshapeProper, hsel, hget, hne, hval, hrs, hinv, hb, hm]
  · rw [hrw]
    constructor
    · simp [finishReshapeProper, hsel, hget, hne, hval, hrs, hinv, hb, hm]
    · simp [finishReshapeProper, hsel, hget, hne, hval, hrs, hinv, hb, hm]

/-- A degenerate geometry used as an invalid reshape candidate. -/
def gBad : Geometry := .poly [[⟨9, 9⟩, ⟨9, 9⟩, ⟨9, 9⟩]]

/-- Engine where the reshape candidate is invalid and buffer(0) repairs it. -/
def engBufferRepairs : GeoEngine :=
  { contains := fun _ _ => false, intersects := fun _ _ => true,
    isGeosValid := fun g => !(decide (g = gBad)), buffer0 := fun _ => gSquare,
    makeValid := id, reshape := fun _ _ => some gBad }

/-- Engine where the reshape candidate is invalid and neither repair helps. -/
def engUnrepairable : GeoEngine :=
  { contains := fun _ _ => false, intersects := fun _ _ => true,
    isGeosValid := fun g => !(decide (g = gBad)), buffer0 := id,
    makeValid := id, reshape := fun _ _ => some gBad }

/-- Witness for C5: the buffer(0) branch commits the cleaned geometry, and
the both-repairs-fail branch leaves the state untouched with no write. -/
theorem reshape_repair_chain_witness :
    finish_reshape engBufferRepairs stateReshape
        = (applyChanges { stateReshape with
              layer := stateReshape.layer.changeGeometry 1 (engBufferRepairs.buffer0 gBad) },
           [Event.beginEditCommand, Event.isValidTest gSquare true,
            Event.isValidTest gBad false,
            Event.isValidTest (engBufferRepairs.buffer0 gBad) true,
            Event.changeGeometry 1 (engBufferRepairs.buffer0 gBad), Event.endEditCommand]) ∧
      ((finish_reshape engUnrepairable stateReshape).1 = stateReshape ∧
        Event.changeGeometry 1 gSquare ∉ (finish_reshape engUnrepairable stateReshape).2) :=
  ⟨(reshape_repair_chain engBufferRepairs stateReshape ⟨1, gSquare⟩ gBad 1 gSquare
      (by decide) (by decide) (by decide) (by decide) (by decide) (by decide) (by decide)
      (by decide) (by decide) (by decide) (by decide) (by decide)).1 (by decide),
   (reshape_repair_chain engUnrepairable stateReshape ⟨1, gSquare⟩ gBad 1 gSquare
      (by decide) (by decide) (by decide) (by decide) (by decide) (by decide) (by decide)
      (by decide) (by decide) (by decide) (by decide) (by decide)).2.2 (by decide) (by decide)⟩

/-! ### Claim C3 -/

/-- Dropping one element that fails the filter strictly shrinks the list. -/
theorem length_filter_lt_of_mem_false {α : Type} (p : α → Bool) {l : List α} {a : α}
    (ha : a ∈ l) (hpa : p a = false) : (l.filter p).length < l.length := by
  induction l with
  | nil => cases ha
  | cons b t ih =>
    rcases List.mem_cons.mp ha with rfl | hmem
    · simp only [List.filter_cons, hpa, List.length_cons]
      exact Nat.lt_succ_of_le (List.length_filter_le p t)
    · rcases hb : p b with _ | _
      · simp only [List.filter_cons, hb, List.length_cons]
        exact Nat.lt_succ_of_lt (ih hmem)
      · simp only [List.filter_cons, hb, List.length_cons]
        exact Nat.succ_lt_succ (ih hmem)

/-- A part with a contained interior ring is reported as modified. -/
theorem process_polygon_mod (E : GeoEngine) (drawn : Geometry)
    (ext : RingXY) (holes : List RingXY)
    (h : holes.any (ringContained E drawn) = true) :
    (process_polygon E drawn (ext :: holes)).2 = true := by
  rcases List.any_eq_true.mp h with ⟨r, hr, hcr⟩
  have hlt : (holes.filter (should_keep_ring E drawn)).length < holes.length :=
    length_filter_lt_of_mem_false _ hr (by simp [should_keep_ring, hcr])
  simp only [process_polygon, List.length_cons, decide_eq_true_eq]
  omega

theorem deleteLoop_length_le (E : GeoEngine) (drawn : Geometry) (mp : List Polygon) :
    (deleteLoop E drawn mp).1.length ≤ mp.length := by
  induction mp with
  | nil => simp [deleteLoop]
  | cons part rest ih =>
    simp only [deleteLoop]
    split
    · simpa using Nat.succ_le_succ ih
    · exact Nat.le_succ_of_le ih

/-- A multi-polygon with some part holding a contained interior ring comes out
of the deletion loop flagged as modified (directly, or through a dropped part
shrinking the part list). -/
theorem deleteLoop_mod (E : GeoEngine) (drawn : Geometry) (mp : List Polygon)
    (h : mp.any (fun part => (part.drop 1).any (ringContained E drawn)) = true) :
    ((deleteLoop E drawn mp).2
      || decide ((deleteLoop E drawn mp).1.length < mp.length)) = true := by
  induction mp with
  | nil => simp at h
  | cons part rest ih =>
    simp only [List.any_cons, Bool.or_eq_true] at h
    rcases h with hpart | hrest
    · rcases part with _ | ⟨ext, holes⟩
      · simp at hpart
      · have hm2 : (process_polygon E drawn (ext :: holes)).2 = true :=
          process_polygon_mod E drawn ext holes (by simpa using hpart)
        rcases hk : keepPart E drawn (ext :: holes) with _ | _
        · have hle := deleteLoop_length_le E drawn rest
          simp only [deleteLoop, hk, Bool.false_eq_true, if_false, List.length_cons,
            Bool.or_eq_true, decide_eq_true_eq]
          right
          omega
        · simp [deleteLoop, hk, hm2]
    · have ihr := ih hrest
      simp only [Bool.or_eq_true, decide_eq_true_eq] at ihr
      rcases hk : keepPart E drawn part with _ | _
      · simp only [deleteLoop, hk, Bool.false_eq_true, if_false, List.length_cons,
          Bool.or_eq_true, decide_eq_true_eq]
        rcases ihr with h2 | hlen
        · exact Or.inl h2
        · right; omega
      · simp only [deleteLoop, hk, if_true, List.length_cons, Bool.or_eq_true,
          decide_eq_true_eq]
        rcases ihr with h2 | hlen
        · exact Or.inl (Or.inr h2)
        · right; omega

/-- The geometry the removal edit commits: every part keeps its exterior ring
and loses its contained interior rings; parts whose exterior polyline is
contained are dropped. -/
def removalGeom (E : GeoEngine) (drawn : Geometry) : Geometry → Geometry
  | .poly rings => .poly (process_polygon E drawn rings).1
  | .multi mp => .multi (deleteLoop E drawn mp).1
  | .line pts => .line pts

/-- A contained interior ring makes `_delete_circumvented_feature` commit the
removal geometry and report `True`. -/
theorem delete_commits_of_contained_hole (E : GeoEngine) (l : Layer) (drawn : Geometry)
    (f : Feature) (rest : List Feature)
    (hsel : l.selectedFeatures = f :: rest)
    (hc : hasContainedInteriorRing E drawn f.geom = true) :
    delete_circumvented E l drawn
      = (l.changeGeometry f.fid (removalGeom E drawn f.geom), true,
         [Event.changeGeometry f.fid (removalGeom E drawn f.geom)]) := by
  rcases hfg : f.geom with rings | mp | pts
  · rw [hfg] at hc
    rcases rings with _ | ⟨ext, holes⟩
    · simp [hasContainedInteriorRing] at hc
    · have hmod : (process_polygon E drawn (ext :: holes)).2 = true :=
        process_polygon_mod E drawn ext holes (by simpa [hasContainedInteriorRing] using hc)
      simp [delete_circumvented, hsel, hfg, hmod, removalGeom]
  · rw [hfg] at hc
    have hmod := deleteLoop_mod E drawn mp (by simpa [hasContainedInteriorRing] using hc)
    simp [delete_circumvented, hsel, hfg, hmod, removalGeom]
  · rw [hfg] at hc
    simp [hasContainedInteriorRing] at hc

/-- Claim C3: in reshape mode, a drawn ring that contains at least one
existing interior ring of the selected feature makes the gesture a
RemoveContained edit and nothing else: the finish commits exactly the removal
geometry and stops — no reshape, add-part or add-hole action appears in the
trace, whatever else (boundary crossings included) holds of the drawn ring. -/
theorem contained_hole_classifies_removal (E : GeoEngine) (s : ToolState)
    (f : Feature) (rest : List Feature)
    (hstream : s.streaming = true) (hlen : 2 ≤ s.points.length)
    (hmode : s.drawingMode = false)
    (hsel : s.layer.selectedFeatures = f :: rest)
    (hwf : f.geom.WF)
    (hc : hasContainedInteriorRing E (drawnPolygon s.points) f.geom = true) :
    delete_circumvented E s.layer (drawnPolygon s.points)
        = (s.layer.changeGeometry f.fid (removalGeom E (drawnPolygon s.points) f.geom), true,
           [Event.changeGeometry f.fid (removalGeom E (drawnPolygon s.points) f.geom)]) ∧
      finish_reshape E s
        = ({ s with points := [], streaming := false, layer :=
              s.layer.changeGeometry f.fid (removalGeom E (drawnPolygon s.points) f.geom) },
           [Event.beginEditCommand,
            Event.changeGeometry f.fid (removalGeom E (drawnPolygon s.points) f.geom),
            Event.endEditCommand]) := by
  have hdel := delete_commits_of_contained_hole E s.layer (drawnPolygon s.points) f rest hsel hc
  have hg : (!s.streaming || decide (s.points.length < 2)) = false := by
    rw [hstream]; simp; omega
  refine ⟨hdel, ?_⟩
  simp [finish_reshape, hg, hmode, hdel, applyChanges]

/-- Witness for C3: a polygon with one hole, an engine whose containment test
accepts everything; the finish performs exactly the removal commit. -/
theorem contained_hole_classifies_removal_witness :
    delete_circumvented engNothingValid stateHole.layer (drawnPolygon stateHole.points)
        = (stateHole.layer.changeGeometry 1
            (removalGeom engNothingValid (drawnPolygon stateHole.points)
              (Geometry.poly [extR, holeR])), true,
           [Event.changeGeometry 1
             (removalGeom engNothingValid (drawnPolygon stateHole.points)
               (Geometry.poly [extR, holeR]))]) ∧
      finish_reshape engNothingValid stateHole
        = ({ stateHole with points := [], streaming := false, layer :=
              (stateHole.layer.changeGeometry 1
                (removalGeom engNothingValid (drawnPolygon stateHole.points)
                  (Geometry.poly [extR, holeR]))) },
           [Event.beginEditCommand,
            Event.changeGeometry 1
              (removalGeom engNothingValid (drawnPolygon stateHole.points)
                (Geometry.poly [extR, holeR])),
            Event.endEditCommand]) :=
  contained_hole_classifies_removal engNothingValid stateHole ⟨1, .poly [extR, holeR]⟩ []
    (by decide) (by decide) (by decide) (by decide) (by simp [Geometry.WF]) (by decide)

/-! ### Claim C4 -/

/-- The deletion loop keeps exactly the parts whose exterior polyline is not
contained, each processed, and ORs the modified flags of the kept parts. -/
theorem deleteLoop_eq_filter (E : GeoEngine) (drawn : Geometry) (mp : List Polygon) :
    deleteLoop E drawn mp
      = ((mp.filter (keepPart E drawn)).map (fun p => (process_polygon E drawn p).1),
         (mp.filter (keepPart E drawn)).any (fun p => (process_polygon E drawn p).2)) := by
  induction mp with
  | nil => simp [deleteLoop]
  | cons part rest ih =>
    simp only [deleteLoop, ih]
    rcases hk : keepPart E drawn part with _ | _
    · simp [List.filter_cons, hk]
    · simp [List.filter_cons, hk]

/-- `changeGeometry` followed by `getFeature` on the same id yields the
feature with the replaced geometry, provided some feature has that id. -/
theorem find?_changeGeometry (feats : List Feature) (fid : Int) (g : Geometry)
    (h : (feats.find? (fun x => x.fid == fid)).isSome = true) :
    (feats.map (fun f => if f.fid == fid then { f with geom := g } else f)).find?
        (fun x => x.fid == fid) = some ⟨fid, g⟩ := by
  induction feats with
  | nil => simp at h
  | cons x t ih =>
    rcases x with ⟨xf, xg⟩
    rw [List.map_cons]
    by_cases hx : (xf == fid) = true
    · have hfid : xf = fid := by simpa using hx
      subst hfid
      rw [if_pos hx, List.find?_cons_of_pos _ (by simp)]
    · rw [if_neg hx, List.find?_cons_of_neg _ (by simpa using hx)]
      have h2 : (t.find? (fun x => x.fid == fid)).isSome = true := by
        rwa [List.find?_cons_of_neg _ (by simpa using hx)] at h
      exact ih h2

theorem getFeature_changeGeometry (l : Layer) (fid : Int) (g : Geometry)
    (h : (l.feats.find? (fun x => x.fid == fid)).isSome = true) :
    (l.changeGeometry fid g).getFeature fid = ⟨fid, g⟩ := by
  show ((l.feats.map (fun f => if f.fid == fid then { f with geom := g } else f)).find?
      (fun x => x.fid == fid)).getD ⟨fid, .poly []⟩ = ⟨fid, g⟩
  rw [find?_changeGeometry l.feats fid g h]
  rfl

/-- The exterior ring (ring 0) of a polygon geometry. -/
def firstRing : Geometry → Option RingXY
  | .poly (r :: _) => some r
  | _ => none

/-- Claim C4 (amended): (1) for a MultiPolygon, a part whose exterior ring —
tested as a polyline — is contained in the drawn polygon is deleted, and the
removal is committed; (2) for a single Polygon the exterior ring is always
kept, so the sole part is never deleted, whatever the containment tests say;
(3) when every part of a MultiPolygon is flagged, the empty multi-polygon is
committed — there is no FeatureEmptied report anywhere. -/
theorem removeContained_part_deletion (E : GeoEngine) (l : Layer) (drawn : Geometry)
    (f : Feature) (rest : List Feature)
    (hsel : l.selectedFeatures = f :: rest)
    (hfind : l.feats.find? (fun x => x.fid == f.fid) = some f) :
    (∀ mp ext tl, f.geom = .multi mp → (ext :: tl) ∈ mp →
        E.contains drawn (.line ext) = true →
        delete_circumvented E l drawn
            = (l.changeGeometry f.fid (removalGeom E drawn f.geom), true,
               [Event.changeGeometry f.fid (removalGeom E drawn f.geom)]) ∧
          (deleteLoop E drawn mp).1
            = (mp.filter (keepPart E drawn)).map (fun p => (process_polygon E drawn p).1) ∧
          (deleteLoop E drawn mp).1.length < mp.length) ∧
    (∀ ext tl, f.geom = .poly (ext :: tl) →
        firstRing ((delete_circumvented E l drawn).1.getFeature f.fid).geom = some ext) ∧
    (∀ mp, f.geom = .multi mp → mp ≠ [] →
        (∀ p ∈ mp, keepPart E drawn p = false) →
        delete_circumvented E l drawn
          = (l.changeGeometry f.fid (.multi []), true,
             [Event.changeGeometry f.fid (.multi [])])) := by
  refine ⟨?_, ?_, ?_⟩
  · intro mp ext tl hfg hmem hcont
    have hkp : keepPart E drawn (ext :: tl) = false := by simp [keepPart, hcont]
    have hfl : (mp.filter (keepPart E drawn)).length < mp.length :=
      length_filter_lt_of_mem_false _ hmem hkp
    have hdl := deleteLoop_eq_filter E drawn mp
    have hlen : (deleteLoop E drawn mp).1.length < mp.length := by
      rw [hdl]; simpa using hfl
    have hmod : ((deleteLoop E drawn mp).2
        || decide ((deleteLoop E drawn mp).1.length < mp.length)) = true := by
      simp [hlen]
    refine ⟨?_, ?_, hlen⟩
    · simp [delete_circumvented, hsel, hfg, hmod, removalGeom]
    · rw [hdl]
  · intro ext tl hfg
    by_cases hm : (process_polygon E drawn (ext :: tl)).2 = true
    · have hd : delete_circumvented E l drawn
          = (l.changeGeometry f.fid (.poly (process_polygon E drawn (ext :: tl)).1), true,
             [Event.changeGeometry f.fid (.poly (process_polygon E drawn (ext :: tl)).1)]) := by
        simp [delete_circumvented, hsel, hfg, hm]
      rw [hd]
      have hgf := getFeature_changeGeometry l f.fid
        (.poly (process_polygon E drawn (ext :: tl)).1) (by rw [hfind]; rfl)
      rw [hgf]
      simp [process_polygon, firstRing]
    · have hd : delete_circumvented E l drawn = (l, false, []) := by
        simp [delete_circumvented, hsel, hfg, hm]
      rw [hd]
      simp [Layer.getFeature, hfind, hfg, firstRing]
  · intro mp hfg hne hall
    have hnil : mp.filter (keepPart E drawn) = [] :=
      List.filter_eq_nil_iff.mpr (fun p hp => by simp [hall p hp])
    have hdl := deleteLoop_eq_filter E drawn mp
    have h0 : (deleteLoop E drawn mp).1 = [] := by rw [hdl]; simp [hnil]
    have hlen : (deleteLoop E drawn mp).1.length < mp.length := by
      rw [h0]
      simpa [List.length_pos] using hne
    have hmod : ((deleteLoop E drawn mp).2
        || decide ((deleteLoop E drawn mp).1.length < mp.length)) = true := by
      simp [hlen]
    have hcommit : delete_circumvented E l drawn
        = (l.changeGeometry f.fid (.multi (deleteLoop E drawn mp).1), true,
           [Event.changeGeometry f.fid (.multi (deleteLoop E drawn mp).1)]) := by
      simp [delete_circumvented, hsel, hfg, hmod]
    rw [hcommit, h0]

/-- An engine whose containment test accepts everything. -/
def engContainsAll : GeoEngine :=
  { contains := fun _ _ => true, intersects := fun _ _ => false,
    isGeosValid := fun _ => true, buffer0 := id, makeValid := id,
    reshape := fun _ _ => none }

def layerNoHole : Layer :=
  { feats := [⟨1, .poly [extR]⟩], selIds := [1], acceptAdd := true, nextFid := 2 }

/-- Claim C4 counterexample: the engine reports that the drawn polygon
contains the single polygon's exterior ring (as a polygon and as a polyline),
yet `_delete_circumvented_feature` deletes nothing and reports `False` — the
part of a single-Polygon feature is never deleted, contradicting the claim
that any part whose exterior ring is contained is deleted. -/
theorem contained_single_exterior_not_deleted :
    engContainsAll.contains (drawnPolygon [⟨1, 1⟩, ⟨6, 1⟩]) (.poly [extR]) = true ∧
      engContainsAll.contains (drawnPolygon [⟨1, 1⟩, ⟨6, 1⟩]) (.line extR) = true ∧
      delete_circumvented engContainsAll layerNoHole (drawnPolygon [⟨1, 1⟩, ⟨6, 1⟩])
        = (layerNoHole, false, []) := by
  decide

def layerTwoSquares : Layer :=
  { feats := [⟨1, .multi [[extR], [holeR]]⟩], selIds := [1], acceptAdd := true, nextFid := 2 }

/-- Witness for the amended C4 at concrete inputs: a two-part MultiPolygon
whose parts are all contained loses the flagged part (indeed all parts,
committing the empty multi-polygon), while the single-Polygon feature keeps
its exterior ring. -/
theorem removeContained_part_deletion_witness :
    (delete_circumvented engContainsAll layerTwoSquares (drawnPolygon [⟨1, 1⟩, ⟨6, 1⟩])
        = (layerTwoSquares.changeGeometry 1
            (removalGeom engContainsAll (drawnPolygon [⟨1, 1⟩, ⟨6, 1⟩])
              (Feature.geom ⟨1, .multi [[extR], [holeR]]⟩)), true,
           [Event.changeGeometry 1
             (removalGeom engContainsAll (drawnPolygon [⟨1, 1⟩, ⟨6, 1⟩])
               (Feature.geom ⟨1, .multi [[extR], [holeR]]⟩))]) ∧
        (deleteLoop engContainsAll (drawnPolygon [⟨1, 1⟩, ⟨6, 1⟩]) [[extR], [holeR]]).1
          = (([[extR], [holeR]] : List Polygon).filter
                (keepPart engContainsAll (drawnPolygon [⟨1, 1⟩, ⟨6, 1⟩]))).map
              (fun p => (process_polygon engContainsAll (drawnPolygon [⟨1, 1⟩, ⟨6, 1⟩]) p).1) ∧
        (deleteLoop engContainsAll (drawnPolygon [⟨1, 1⟩, ⟨6, 1⟩])
            [[extR], [holeR]]).1.length < ([[extR], [holeR]] : List Polygon).length) ∧
      firstRing ((delete_circumvented engContainsAll layerNoHole
          (drawnPolygon [⟨1, 1⟩, ⟨6, 1⟩])).1.getFeature 1).geom = some extR ∧
      delete_circumvented engContainsAll layerTwoSquares (drawnPolygon [⟨1, 1⟩, ⟨6, 1⟩])
        = (layerTwoSquares.changeGeometry 1 (.multi []), true,
           [Event.changeGeometry 1 (.multi [])]) :=
  ⟨(removeContained_part_deletion engContainsAll layerTwoSquares
      (drawnPolygon [⟨1, 1⟩, ⟨6, 1⟩]) ⟨1, .multi [[extR], [holeR]]⟩ []
      (by decide) (by decide)).1 [[extR], [holeR]] extR [] rfl (by decide) (by decide),
   (removeContained_part_deletion engContainsAll layerNoHole
      (drawnPolygon [⟨1, 1⟩, ⟨6, 1⟩]) ⟨1, .poly [extR]⟩ []
      (by decide) (by decide)).2.1 extR [] rfl,
   (removeContained_part_deletion engContainsAll layerTwoSquares
      (drawnPolygon [⟨1, 1⟩, ⟨6, 1⟩]) ⟨1, .multi [[extR], [holeR]]⟩ []
      (by decide) (by decide)).2.2 [[extR], [holeR]] rfl (by decide) (by decide)⟩

/-! ### Claim C6 -/

/-- Claim C6 (amended): the finish guard fails (with a warning, leaving the
state alone) exactly when streaming has not started or fewer than 2 points
were captured — in BOTH modes, with no 3-distinct-points test for the drawing
mode; past the guard, the drawing mode closes the ring by appending the first
point unconditionally (even when the sequence is already closed) and adds the
feature. -/
theorem ring_builder_behavior (E : GeoEngine) (s : ToolState) :
    ((!s.streaming || decide (s.points.length < 2)) = true →
      finish_reshape E s = (s, [Event.warn .drawAtLeast2])) ∧
    (s.streaming = true → 2 ≤ s.points.length → s.drawingMode = true →
      Event.addFeature (Geometry.poly [s.points ++ [s.points.headI]])
          ∈ (finish_reshape E s).2 ∧
        (finish_reshape E s).1.points = []) := by
  constructor
  · intro hg
    simp [finish_reshape, hg]
  · intro h1 h2 h3
    have hg : (!s.streaming || decide (s.points.length < 2)) = false := by
      rw [h1]; simp; omega
    constructor
    · simp [finish_reshape, hg, h3, finishDraw, drawnPolygon, closedRing]
    · simp [finish_reshape, hg, h3, finishDraw, applyChanges]

/-- A drawing-mode state with two captured (distinct) vertices. -/
def stateDraw2 : ToolState :=
  { mkInitialState layerEmpty with
      points := [⟨0, 0⟩, ⟨10, 0⟩], streaming := true, drawingMode := true }

/-- Claim C6 counterexample: in freestanding-draw mode with only 2 distinct
points the finish does NOT fail with an insufficient-vertices diagnostic; it
builds the degenerate ring (0,0)-(10,0)-(0,0), adds the feature, and completes
the gesture, clearing the sequence. -/
theorem draw_two_distinct_points_not_rejected :
    (finish_reshape engTrivial stateDraw2).2
        = [Event.beginEditCommand,
           Event.addFeature (.poly [[⟨0, 0⟩, ⟨10, 0⟩, ⟨0, 0⟩]]),
           Event.isValidTest (.poly [[⟨0, 0⟩, ⟨10, 0⟩, ⟨0, 0⟩]]) true,
           Event.endEditCommand] ∧
      (finish_reshape engTrivial stateDraw2).1.points = [] := by
  decide

/-- Witness for the amended C6: the guard branch at a one-point state, and the
unconditional ring closure at a two-point drawing state. -/
theorem ring_builder_behavior_witness :
    finish_reshape engTrivial stateOnePoint = (stateOnePoint, [Event.warn .drawAtLeast2]) ∧
      (Event.addFeature (Geometry.poly [stateDraw2.points ++ [stateDraw2.points.headI]])
          ∈ (finish_reshape engTrivial stateDraw2).2 ∧
        (finish_reshape engTrivial stateDraw2).1.points = []) :=
  ⟨(ring_builder_behavior engTrivial stateOnePoint).1 (by decide),
   (ring_builder_behavior engTrivial stateDraw2).2 (by decide) (by decide) (by decide)⟩

/-! ### Claim C7 -/

/-- When no part's geometry contains the drawn polygon, the add-hole loop
falls through without selecting any part. -/
theorem addHoleMulti_none (E : GeoEngine) (drawn : Geometry) (closed : RingXY)
    (mp : List Polygon) (h : ∀ part ∈ mp, E.contains (.poly part) drawn = false) :
    addHoleMulti E drawn closed mp = none := by
  induction mp with
  | nil => rfl
  | cons part rest ih =>
    simp [addHoleMulti, h part (List.mem_cons_self part rest),
      ih (fun p hp => h p (List.mem_cons_of_mem part hp))]

/-- Claim C7 (amended): an AddHole classification against a MultiPolygon none
of whose parts contains the drawn ring performs no geometry write — but no
`AmbiguousPart` (or any other) failure is signalled: the gesture completes
silently, ending the edit command and clearing the vertex sequence. -/
theorem addHole_no_containing_part_is_silent (E : GeoEngine) (s : ToolState)
    (f : Feature) (mp : List Polygon)
    (hstream : s.streaming = true) (hlen : 2 ≤ s.points.length)
    (hmode : s.drawingMode = false)
    (hsel : s.layer.selectedFeatures = [f]) (hfg : f.geom = .multi mp)
    (hdel : (delete_circumvented E s.layer (drawnPolygon s.points)).2.1 = false)
    (hint : E.intersects f.geom (drawnPolygon s.points) = true)
    (hcirc : circumventsCheck E (drawnPolygon s.points) f.geom = false)
    (hcont : E.contains f.geom (drawnPolygon s.points) = true)
    (hnopart : ∀ part ∈ mp, E.contains (.poly part) (drawnPolygon s.points) = false) :
    finish_reshape E s = (applyChanges s, [Event.beginEditCommand, Event.endEditCommand]) := by
  have hg : (!s.streaming || decide (s.points.length < 2)) = false := by
    rw [hstream]; simp; omega
  have hev : (delete_circumvented E s.layer (drawnPolygon s.points)).2.2 = [] :=
    delete_not_modified_events E s.layer (drawnPolygon s.points) f [] hsel hdel
  have hah : addHoleMulti E (drawnPolygon s.points) (closedRing s.points) mp = none :=
    addHoleMulti_none E (drawnPolygon s.points) (closedRing s.points) mp hnopart
  rw [hfg] at hint hcirc hcont
  simp [finish_reshape, hg, hmode, hdel, hsel, hfg, hint, hcirc, hcont, hev, hah]

/-- An engine under which only multi-polygon geometries contain anything:
the feature contains the drawn ring, but no single part does. -/
def engMultiContains : GeoEngine :=
  { contains := fun a _ => match a with | .multi _ => true | _ => false,
    intersects := fun _ _ => true, isGeosValid := fun _ => true,
    buffer0 := id, makeValid := id, reshape := fun _ _ => none }

def partA : Polygon := [[⟨0, 0⟩, ⟨4, 0⟩, ⟨4, 4⟩, ⟨0, 0⟩]]

def partB : Polygon := [[⟨10, 0⟩, ⟨14, 0⟩, ⟨14, 4⟩, ⟨10, 0⟩]]

def layerTwoParts : Layer :=
  { feats := [⟨1, .multi [partA, partB]⟩], selIds := [1], acceptAdd := true, nextFid := 2 }

def stateTwoParts : ToolState :=
  { mkInitialState layerTwoParts with points := [⟨1, 1⟩, ⟨2, 1⟩], streaming := true }

/-- Claim C7 counterexample: the AddHole situation where no single part
contains the drawn ring produces a trace with no warning event at all (and no
write) — nothing resembling an `AmbiguousPart` signal is surfaced; the
gesture ends silently. -/
theorem ambiguous_part_is_silent_cex :
    finish_reshape engMultiContains stateTwoParts
      = (applyChanges stateTwoParts, [Event.beginEditCommand, Event.endEditCommand]) := by
  decide

/-- Witness for the amended C7 at the concrete two-part feature. -/
theorem addHole_no_containing_part_is_silent_witness :
    finish_reshape engMultiContains stateTwoParts
      = (applyChanges stateTwoParts, [Event.beginEditCommand, Event.endEditCommand]) :=
  addHole_no_containing_part_is_silent engMultiContains stateTwoParts
    ⟨1, .multi [partA, partB]⟩ [partA, partB]
    (by decide) (by decide) (by decide) (by decide) (by decide) (by decide)
    (by decide) (by decide) (by decide) (by decide)
